import Mathlib

/-!
Verification of the BLE keyboard connection and input-decoding core of the
microslate firmware (src/ble_keyboard.cpp, with the UI gating from
src/main.cpp).  The C++ module state is embedded as the structure `BleSt`;
each C++ function becomes a pure Lean function from state (plus the inputs
the radio stack or clock would supply) to state.  Machine integers carry no
arithmetic that can overflow in the modelled paths, so they are embedded as
`Nat` (addresses, being `std::string`, are embedded as `String`).
-/

/-- Connection state enum from config.h (`enum class BLEState`). -/
inductive BLEState : Type where
  | DISCONNECTED : BLEState
  | SCANNING : BLEState
  | CONNECTING : BLEState
  | CONNECTED : BLEState
deriving DecidableEq, Repr

/-- UI state enum from config.h (`enum class UIState`). -/
inductive UIState : Type where
  | MAIN_MENU : UIState
  | FILE_BROWSER : UIState
  | TEXT_EDITOR : UIState
  | RENAME_FILE : UIState
  | NEW_FILE : UIState
  | SETTINGS : UIState
  | BLUETOOTH_SETTINGS : UIState
  | WIFI_SYNC : UIState
deriving DecidableEq, Repr

/-- Key event pushed to the input queue (config.h `struct KeyEvent`). -/
structure KeyEvent : Type where
  keyCode : Nat
  modifiers : Nat
  pressed : Bool
deriving DecidableEq, Repr

/-- Discovered-device entry (`struct BleDeviceInfo`, with the `addressType`
field used by ble_keyboard.cpp). -/
structure BleDeviceInfo : Type where
  address : String := ""
  name : String := ""
  rssi : Int := 0
  addressType : Nat := 0
  lastSeenMs : Nat := 0
deriving DecidableEq, Repr

/-- Module state of ble_keyboard.cpp (the file-level statics), plus
`screenDirty` from main.cpp.  Defaults are the C++ static initializers. -/
structure BleSt : Type where
  bleState : BLEState := BLEState.DISCONNECTED
  connectToKeyboard : Bool := false
  keyboardAddress : String := ""
  keyboardAddressType : Nat := 0
  lastReport : List Nat := [0, 0, 0, 0, 0, 0, 0, 0]
  autoReconnectEnabled : Bool := true
  reconnectDelay : Nat := 10000
  lastReconnectAttempt : Nat := 0
  lastBleKeystrokeMs : Nat := 0
  bleConnIdleMode : Bool := false
  discoveredDevices : List BleDeviceInfo := []
  isScanning : Bool := false
  continuousScanning : Bool := false
  scanStartMs : Nat := 0
  workerActive : Bool := false
  authSuccess : Bool := false
  clientConnected : Bool := false
  storedAddress : String := ""
  storedName : String := ""
  storedAddrType : Nat := 0
  screenDirty : Bool := false
deriving DecidableEq, Repr

/-- Backoff constants: `reconnectDelay` starts at 10000 ms and is capped by
`MAX_RECONNECT_DELAY` (120000 ms). -/
def RECONNECT_FLOOR : Nat := 10000

def MAX_RECONNECT_DELAY : Nat := 120000

def CONN_INTERVAL_ACTIVE_MIN : Nat := 12

def CONN_INTERVAL_ACTIVE_MAX : Nat := 16

def CONN_INTERVAL_IDLE_MIN : Nat := 80

def CONN_INTERVAL_IDLE_MAX : Nat := 160

def CONN_SLAVE_LATENCY_ACTIVE : Nat := 0

def CONN_SLAVE_LATENCY_IDLE : Nat := 4

def CONN_SUPERVISION_TIMEOUT : Nat := 400

def BLE_IDLE_SWITCH_MS : Nat := 3000

/-! ## Report decoder (onKeyboardNotify) -/

/-- Key slots of a normalized report: bytes 2..7 (the loops in
`onKeyboardNotify` run `for i = 2; i < 8`). -/
def keySlots (r : List Nat) : List Nat := r.drop 2

/-- Press detection: each non-zero keycode of the new report that is in no
slot of the retained report emits a press event with the report's
modifier byte (first diff loop of `onKeyboardNotify`). -/
def pressEvents (lastR newR : List Nat) (modifiers : Nat) : List KeyEvent :=
  (keySlots newR).filterMap fun k =>
    if k ≠ 0 ∧ k ∉ keySlots lastR then
      some { keyCode := k, modifiers := modifiers, pressed := true }
    else none

/-- Release detection: each non-zero keycode of the retained report that is
in no slot of the new report emits a release event (second diff loop of
`onKeyboardNotify`). -/
def releaseEvents (lastR newR : List Nat) (modifiers : Nat) : List KeyEvent :=
  (keySlots lastR).filterMap fun k =>
    if k ≠ 0 ∧ k ∉ keySlots newR then
      some { keyCode := k, modifiers := modifiers, pressed := false }
    else none

/-- The notification callback `onKeyboardNotify`: drops payloads that are
neither 7 nor 8 bytes; normalizes 7-byte payloads by inserting a zero
reserved byte; emits all press events followed by all release events; then
retains the normalized report and records keystroke activity.  The returned
list is what gets handed to `enqueueKeyEvent`. -/
def onKeyboardNotify (st : BleSt) (pData : List Nat) (now : Nat) :
    BleSt × List KeyEvent :=
  if pData.length ≠ 7 ∧ pData.length ≠ 8 then (st, [])
  else
    let modifiers := pData.headD 0
    let newReport := if pData.length = 8 then pData
                     else pData.take 1 ++ 0 :: pData.drop 1
    let events := pressEvents st.lastReport newReport modifiers
                    ++ releaseEvents st.lastReport newReport modifiers
    ({ st with lastReport := newReport, lastBleKeystrokeMs := now }, events)

/-- `e1` is emitted strictly before `e2` in the event list `evs`. -/
def emittedBefore (evs : List KeyEvent) (e1 e2 : KeyEvent) : Prop :=
  e1 ∈ evs ∧ e2 ∈ evs ∧ evs.indexOf e1 < evs.indexOf e2

/-- Helper: a `filterMap` over a list in which exactly one element is kept
produces exactly that element's image. -/
theorem filterMap_single {α β : Type} [DecidableEq α] {l : List α}
    {f : α → Option β} {c : α} {e : β}
    (hc : l.count c = 1) (hfc : f c = some e)
    (hother : ∀ x ∈ l, x ≠ c → f x = none) :
    l.filterMap f = [e] := by
  revert hc hother
  induction l with
  | nil =>
    intro hc _
    simp at hc
  | cons a t ih =>
    intro hc hother
    by_cases hac : a = c
    · subst hac
      have ht : t.count a = 0 := by
        have hcc := List.count_cons_self a t
        omega
      have htn : ∀ x ∈ t, f x = none := by
        intro x hx
        have hxa : x ≠ a := by
          intro hxa
          exact (List.count_eq_zero.mp ht) (hxa ▸ hx)
        exact hother x (List.mem_cons_of_mem _ hx) hxa
      rw [List.filterMap_cons, hfc, List.filterMap_eq_nil_iff.mpr htn]
    · have hfa : f a = none := hother a (List.mem_cons_self a t) hac
      have hct : t.count c = 1 := by
        have hcc := List.count_cons c a t
        simp only [beq_iff_eq] at hcc
        rw [if_neg hac] at hcc
        omega
      rw [List.filterMap_cons, hfa]
      exact ih hct (fun x hx hxc => hother x (List.mem_cons_of_mem _ hx) hxc)

/-- Sample state for witnesses: retained report holding keycodes 4 and 5. -/
def sampleStAB : BleSt := { lastReport := [0, 0, 4, 5, 0, 0, 0, 0] }

/-- C1 (counterexample): with previous retained keycodes {4,5} (A=4, B=5) and
new report {5,6} (C=6), the decoder emits press(6) and then release(4): the
press loop of `onKeyboardNotify` runs before the release loop, so release(A)
is NOT emitted before press(C) as the claim states. -/
theorem C1_counterexample :
    (onKeyboardNotify sampleStAB [0, 0, 5, 6, 0, 0, 0, 0] 0).2
        = [{ keyCode := 6, modifiers := 0, pressed := true },
           { keyCode := 4, modifiers := 0, pressed := false }]
    ∧ ¬ emittedBefore (onKeyboardNotify sampleStAB [0, 0, 5, 6, 0, 0, 0, 0] 0).2
        { keyCode := 4, modifiers := 0, pressed := false }
        { keyCode := 6, modifiers := 0, pressed := true } := by
  constructor
  · rfl
  · unfold emittedBefore
    decide

/-- C1 (amended): for every previous retained report whose key slots hold
exactly one occurrence of A and one of B (all other slots zero) and every
8-byte incoming report whose key slots hold exactly one occurrence of B and
one of C (A, B, C non-zero and pairwise distinct), the decoder emits exactly
the press(C) event followed by the release(A) event — exactly one event each,
the press BEFORE the release, and no event for the held key B. -/
theorem C1_amended (st : BleSt) (now m r A B C : Nat) (ks : List Nat)
    (hA : A ≠ 0) (hB : B ≠ 0) (hC : C ≠ 0)
    (hAB : A ≠ B) (hAC : A ≠ C) (hBC : B ≠ C)
    (hks : ks.length = 6)
    (hksMem : ∀ x ∈ ks, x = B ∨ x = C ∨ x = 0)
    (hksB : ks.count B = 1) (hksC : ks.count C = 1)
    (hprevMem : ∀ x ∈ keySlots st.lastReport, x = A ∨ x = B ∨ x = 0)
    (hprevA : (keySlots st.lastReport).count A = 1)
    (hprevB : (keySlots st.lastReport).count B = 1) :
    (onKeyboardNotify st (m :: r :: ks) now).2
        = [{ keyCode := C, modifiers := m, pressed := true },
           { keyCode := A, modifiers := m, pressed := false }] := by
  have hlen : (m :: r :: ks).length = 8 := by simp [hks]
  have hBprev : B ∈ keySlots st.lastReport :=
    List.count_pos_iff.mp (by omega)
  have hCprev : C ∉ keySlots st.lastReport := by
    intro hmem
    rcases hprevMem C hmem with h | h | h
    · exact hAC h.symm
    · exact hBC h.symm
    · exact hC h
  have hBks : B ∈ ks := List.count_pos_iff.mp (by omega)
  have hAks : A ∉ ks := by
    intro hmem
    rcases hksMem A hmem with h | h | h
    · exact hAB h
    · exact hAC h
    · exact hA h
  have hpress : pressEvents st.lastReport (m :: r :: ks) m
      = [{ keyCode := C, modifiers := m, pressed := true }] := by
    unfold pressEvents
    have hslots : keySlots (m :: r :: ks) = ks := rfl
    rw [hslots]
    apply filterMap_single (c := C)
    · exact hksC
    · rw [if_pos ⟨hC, hCprev⟩]
    · intro x hx hxC
      rcases hksMem x hx with h | h | h
      · subst h
        rw [if_neg]
        intro hcl
        exact hcl.2 hBprev
      · exact absurd h hxC
      · subst h
        rw [if_neg]
        intro hcl
        exact hcl.1 rfl
  have hrel : releaseEvents st.lastReport (m :: r :: ks) m
      = [{ keyCode := A, modifiers := m, pressed := false }] := by
    unfold releaseEvents
    have hslots : keySlots (m :: r :: ks) = ks := rfl
    rw [hslots]
    apply filterMap_single (c := A)
    · exact hprevA
    · rw [if_pos ⟨hA, hAks⟩]
    · intro x hx hxA
      rcases hprevMem x hx with h | h | h
      · exact absurd h hxA
      · subst h
        rw [if_neg]
        intro hcl
        exact hcl.2 hBks
      · subst h
        rw [if_neg]
        intro hcl
        exact hcl.1 rfl
  unfold onKeyboardNotify
  rw [if_neg (by omega)]
  simp only [hlen, if_pos, List.headD_cons]
  rw [hpress, hrel]
  rfl

/-- C1 (witness): the amended theorem applied at the counterexample input
A=4, B=5, C=6 with zero modifiers. -/
theorem C1_amended_witness :
    (onKeyboardNotify sampleStAB (0 :: 0 :: [5, 6, 0, 0, 0, 0]) 0).2
        = [{ keyCode := 6, modifiers := 0, pressed := true },
           { keyCode := 4, modifiers := 0, pressed := false }] :=
  C1_amended sampleStAB 0 0 0 4 5 6 [5, 6, 0, 0, 0, 0]
    (by decide) (by decide) (by decide) (by decide) (by decide) (by decide)
    (by decide) (by decide) (by decide) (by decide)
    (by decide) (by decide) (by decide)

/-- C2: decoding a 7-byte payload `[mod, k1..k6]` is identical (same emitted
events, same retained report, same whole state) to decoding the 8-byte
payload `[mod, 0, k1..k6]`. -/
theorem C2_seven_byte_equiv (st : BleSt) (m : Nat) (ks : List Nat) (now : Nat)
    (h6 : ks.length = 6) :
    onKeyboardNotify st (m :: ks) now = onKeyboardNotify st (m :: 0 :: ks) now := by
  have h7 : (m :: ks).length = 7 := by simp [h6]
  have h8 : (m :: 0 :: ks).length = 8 := by simp [h6]
  unfold onKeyboardNotify
  rw [if_neg (by omega), if_neg (by omega)]
  simp only [h7, h8]
  norm_num

/-- C2 (witness): the 7-byte payload [9, 4, 0, 0, 0, 0, 0] decodes exactly as
the 8-byte payload [9, 0, 4, 0, 0, 0, 0, 0]. -/
theorem C2_seven_byte_equiv_witness :
    onKeyboardNotify sampleStAB (9 :: [4, 0, 0, 0, 0, 0]) 3
      = onKeyboardNotify sampleStAB (9 :: 0 :: [4, 0, 0, 0, 0, 0]) 3 :=
  C2_seven_byte_equiv sampleStAB 9 [4, 0, 0, 0, 0, 0] 3 (by decide)

/-- C3: a notification payload whose length is neither 7 nor 8 is silently
dropped — no key events are produced (nothing reaches `enqueueKeyEvent`), and
the whole module state, the retained previous report included, is unchanged. -/
theorem C3_malformed_dropped (st : BleSt) (pData : List Nat) (now : Nat)
    (h7 : pData.length ≠ 7) (h8 : pData.length ≠ 8) :
    onKeyboardNotify st pData now = (st, []) := by
  unfold onKeyboardNotify
  rw [if_pos ⟨h7, h8⟩]

/-- C3 (witness): a 3-byte payload is dropped with no state change. -/
theorem C3_malformed_dropped_witness :
    onKeyboardNotify sampleStAB [1, 2, 3] 42 = (sampleStAB, []) :=
  C3_malformed_dropped sampleStAB [1, 2, 3] 42 (by decide) (by decide)

/-! ## Connection orchestrator, backoff and scan-list state machine -/

/-- Backoff doubling from bleLoop:
`reconnectDelay = (reconnectDelay * 2 > MAX_RECONNECT_DELAY) ? MAX_RECONNECT_DELAY : reconnectDelay * 2`. -/
def nextReconnectDelay (d : Nat) : Nat :=
  if d * 2 > MAX_RECONNECT_DELAY then MAX_RECONNECT_DELAY else d * 2

/-- Delay waited before the k-th connect attempt in a run of consecutive
failures starting from the reset state (`reconnectDelay = 10000`): each
auto-reconnect firing applies `nextReconnectDelay` to the previous delay. -/
def backoffDelay : Nat → Nat
  | 0 => RECONNECT_FLOOR
  | k + 1 => nextReconnectDelay (backoffDelay k)

/-- `upsertDevice`: linear scan of the discovered list by address; the first
matching entry is overwritten, otherwise the sighting is appended. -/
def upsertDevice (l : List BleDeviceInfo) (info : BleDeviceInfo) :
    List BleDeviceInfo :=
  match l with
  | [] => [info]
  | d :: rest =>
      if d.address = info.address then info :: rest
      else d :: upsertDevice rest info

/-- Lookup by address: `find?` over the list, as the linear scans in
ble_keyboard.cpp do. -/
def findByAddress (l : List BleDeviceInfo) (a : String) :
    Option BleDeviceInfo :=
  l.find? fun d => d.address == a

/-- The most recent (last) sighting in `ss` whose address is `a`; this is the
spec's "most recent attributes" for an address. -/
def lastMatch (ss : List BleDeviceInfo) (a : String) : Option BleDeviceInfo :=
  match ss with
  | [] => none
  | s :: tail =>
      match lastMatch tail a with
      | some d => some d
      | none => if s.address = a then some s else none

/-- First block of `bleLoop`: if our one-shot scan flag is set but the stack
reports the scan over, clear the scanning flags and request a redraw.
`extScanActive` is `NimBLEDevice::getScan()->isScanning()`. -/
def scanCompleteCheck (st : BleSt) (extScanActive : Bool) : BleSt :=
  if st.isScanning = true ∧ extScanActive = false then
    { st with isScanning := false, continuousScanning := false,
              screenDirty := true }
  else st

/-- `startConnectTask`: spawn the connect worker unless one is already
running (in which case the call only logs and returns). -/
def startConnectTask (st : BleSt) : BleSt :=
  if st.workerActive = true then st
  else { st with workerActive := true }

/-- Adaptive connection-parameter block of `bleLoop`: while connected, switch
to the idle profile after `BLE_IDLE_SWITCH_MS` without keystrokes and back to
the active profile on fresh keystrokes (the `updateConnParams` call itself
goes to the radio stack; the retained mode bit is `bleConnIdleMode`). -/
def adaptiveConnParams (st : BleSt) (now : Nat) : BleSt :=
  if st.bleState = BLEState.CONNECTED ∧ st.clientConnected = true then
    if st.bleConnIdleMode = false ∧ now - st.lastBleKeystrokeMs > BLE_IDLE_SWITCH_MS then
      { st with bleConnIdleMode := true }
    else if st.bleConnIdleMode = true ∧ now - st.lastBleKeystrokeMs ≤ BLE_IDLE_SWITCH_MS then
      { st with bleConnIdleMode := false }
    else st
  else st

/-- Auto-reconnect block of `bleLoop`: when disconnected with auto-reconnect
enabled and no worker running, and a stored device exists (non-empty stored
address), fire once the backoff delay has elapsed: record the attempt time,
target the stored device, set the pending-connect flag, and double the delay
up to the cap. -/
def autoReconnectCheck (st : BleSt) (now : Nat) : BleSt :=
  if st.bleState = BLEState.DISCONNECTED ∧ st.autoReconnectEnabled = true
      ∧ st.workerActive = false then
    if 0 < st.storedAddress.length then
      if now - st.lastReconnectAttempt ≥ st.reconnectDelay then
        { st with lastReconnectAttempt := now,
                  keyboardAddress := st.storedAddress,
                  keyboardAddressType := st.storedAddrType,
                  connectToKeyboard := true,
                  reconnectDelay := nextReconnectDelay st.reconnectDelay }
      else st
    else st
  else st

/-- `bleLoop`: scan-completion detection, then — if a connect is pending, no
worker is running and we are not connected — clear the pending flag, launch
the worker and return early; otherwise run the adaptive-parameter block and
the auto-reconnect block. -/
def bleLoop (st : BleSt) (now : Nat) (extScanActive : Bool) : BleSt :=
  let st0 := scanCompleteCheck st extScanActive
  if st0.connectToKeyboard = true ∧ st0.bleState ≠ BLEState.CONNECTED
      ∧ st0.workerActive = false then
    startConnectTask { st0 with connectToKeyboard := false }
  else
    autoReconnectCheck (adaptiveConnParams st0 now) now

/-- `cancelPendingConnection`: clear the pending flag; if state shows
`CONNECTING` but no worker is actually running, fall back to
`DISCONNECTED`. -/
def cancelPendingConnection (st : BleSt) : BleSt :=
  let st1 := { st with connectToKeyboard := false }
  if st1.bleState = BLEState.CONNECTING ∧ st1.workerActive = false then
    { st1 with bleState := BLEState.DISCONNECTED }
  else st1

/-- `stopDeviceScan`: stop the stack scan and clear the scanning flags. -/
def stopDeviceScan (st : BleSt) : BleSt :=
  { st with isScanning := false, continuousScanning := false }

/-- `startDeviceScan`: cancel any pending connection, clear the discovered
list, start a one-shot 5 s scan and mark the session active. -/
def startDeviceScan (st : BleSt) (now : Nat) : BleSt :=
  let st1 := cancelPendingConnection st
  { st1 with discoveredDevices := [],
             scanStartMs := now,
             isScanning := true,
             continuousScanning := false }

/-- First discovered device with the given address, else the address itself —
the name-lookup loop in step 5 of `bleConnectTask`. -/
def lookupDiscoveredName (devs : List BleDeviceInfo) (addr : String) : String :=
  match devs.find? fun d => d.address = addr with
  | some d => d.name
  | none => addr

/-- The connect worker `bleConnectTask`, parameterized by the radio-stack
outcomes of its blocking steps: link establishment (`connectOk`), security
negotiation (`authOk` — never fatal), and service discovery + HID
subscription (`hidOk`).  On success it persists the pairing record when it
differs from the stored one, requests active connection parameters, resets
the backoff delay to the floor and transitions to `CONNECTED`; on failure it
returns to `DISCONNECTED` and clears the worker handle. -/
def bleConnectTask (st : BleSt) (connectOk authOk hidOk : Bool) (now : Nat) :
    BleSt :=
  let st1 := { st with bleState := BLEState.CONNECTING, authSuccess := false }
  if connectOk = false then
    { st1 with bleState := BLEState.DISCONNECTED, workerActive := false }
  else
    let st2 := { st1 with clientConnected := true, authSuccess := authOk }
    if hidOk = false then
      { st2 with clientConnected := false,
                 bleState := BLEState.DISCONNECTED, workerActive := false }
    else
      let st3 :=
        if st2.storedAddress.length = 0 ∨ st2.storedAddress ≠ st2.keyboardAddress then
          { st2 with storedAddress := st2.keyboardAddress,
                     storedName := lookupDiscoveredName st2.discoveredDevices
                                     st2.keyboardAddress,
                     storedAddrType := st2.keyboardAddressType }
        else st2
      { st3 with bleConnIdleMode := false,
                 lastBleKeystrokeMs := now,
                 bleState := BLEState.CONNECTED,
                 reconnectDelay := RECONNECT_FLOOR,
                 workerActive := false }

/-- `connectToDevice`: reject an out-of-range index; otherwise stop the scan,
disconnect any live client (the returned Bool records whether a disconnect
was issued) and set the selected device as pending connect target. -/
def connectToDevice (st : BleSt) (deviceIndex : Int) : BleSt × Bool :=
  if deviceIndex < 0 ∨ deviceIndex ≥ (st.discoveredDevices.length : Int) then
    (st, false)
  else
    let st1 := stopDeviceScan st
    let disconnectIssued := st1.clientConnected
    let st2 := if st1.clientConnected = true then
        { st1 with clientConnected := false }
      else st1
    let dev := st2.discoveredDevices.getD deviceIndex.toNat {}
    ({ st2 with keyboardAddress := dev.address,
                keyboardAddressType := dev.addressType,
                connectToKeyboard := true }, disconnectIssued)

/-- UI gating at the top of main.cpp's `loop()`: while the UI sits in the
Bluetooth-settings (scanning/pairing) screen, auto-reconnect is disabled —
with a one-shot scan started on first entry; on leaving that screen
auto-reconnect is re-enabled and a still-running scan is stopped.  `bleLoop`
is invoked right after this gate. -/
def uiGate (st : BleSt) (currentState lastState : UIState) (now : Nat) :
    BleSt :=
  if currentState = UIState.BLUETOOTH_SETTINGS then
    let st1 := { st with autoReconnectEnabled := false }
    if lastState ≠ UIState.BLUETOOTH_SETTINGS then
      startDeviceScan (cancelPendingConnection st1) now
    else st1
  else
    let st1 := { st with autoReconnectEnabled := true }
    if lastState = UIState.BLUETOOTH_SETTINGS ∧ st1.isScanning = true then
      stopDeviceScan st1
    else st1

/-- `ClientCallbacks::onConnParamsUpdateRequest`: clamp a peripheral's
requested interval range to the floor of the profile selected by
`bleConnIdleMode`, force `itvlMax ≥ itvlMin`, and apply the profile's
latency.  Returns (accepted min, accepted max, applied latency). -/
def onConnParamsUpdateRequest (bleConnIdleMode : Bool)
    (reqItvlMin reqItvlMax : Nat) : Nat × Nat × Nat :=
  let floorMin := if bleConnIdleMode then CONN_INTERVAL_IDLE_MIN
                  else CONN_INTERVAL_ACTIVE_MIN
  let floorMax := if bleConnIdleMode then CONN_INTERVAL_IDLE_MAX
                  else CONN_INTERVAL_ACTIVE_MAX
  let latency := if bleConnIdleMode then CONN_SLAVE_LATENCY_IDLE
                 else CONN_SLAVE_LATENCY_ACTIVE
  let itvlMin := if reqItvlMin > floorMin then reqItvlMin else floorMin
  let itvlMax := if reqItvlMax > floorMax then reqItvlMax else floorMax
  let itvlMax2 := if itvlMin > itvlMax then itvlMin else itvlMax
  (itvlMin, itvlMax2, latency)

/-! ## Frame lemmas for the bleLoop blocks -/

/-- scanCompleteCheck touches only the scanning flags and screenDirty. -/
theorem scanCompleteCheck_frame (st : BleSt) (ext : Bool) :
    (scanCompleteCheck st ext).bleState = st.bleState
    ∧ (scanCompleteCheck st ext).connectToKeyboard = st.connectToKeyboard
    ∧ (scanCompleteCheck st ext).workerActive = st.workerActive
    ∧ (scanCompleteCheck st ext).autoReconnectEnabled = st.autoReconnectEnabled
    ∧ (scanCompleteCheck st ext).reconnectDelay = st.reconnectDelay
    ∧ (scanCompleteCheck st ext).lastReconnectAttempt = st.lastReconnectAttempt
    ∧ (scanCompleteCheck st ext).storedAddress = st.storedAddress
    ∧ (scanCompleteCheck st ext).storedAddrType = st.storedAddrType
    ∧ (scanCompleteCheck st ext).keyboardAddress = st.keyboardAddress
    ∧ (scanCompleteCheck st ext).clientConnected = st.clientConnected
    ∧ (scanCompleteCheck st ext).bleConnIdleMode = st.bleConnIdleMode
    ∧ (scanCompleteCheck st ext).lastBleKeystrokeMs = st.lastBleKeystrokeMs := by
  unfold scanCompleteCheck
  split <;> simp

/-- adaptiveConnParams touches only bleConnIdleMode. -/
theorem adaptiveConnParams_frame (st : BleSt) (now : Nat) :
    (adaptiveConnParams st now).bleState = st.bleState
    ∧ (adaptiveConnParams st now).connectToKeyboard = st.connectToKeyboard
    ∧ (adaptiveConnParams st now).workerActive = st.workerActive
    ∧ (adaptiveConnParams st now).autoReconnectEnabled = st.autoReconnectEnabled
    ∧ (adaptiveConnParams st now).reconnectDelay = st.reconnectDelay
    ∧ (adaptiveConnParams st now).lastReconnectAttempt = st.lastReconnectAttempt
    ∧ (adaptiveConnParams st now).storedAddress = st.storedAddress
    ∧ (adaptiveConnParams st now).storedAddrType = st.storedAddrType
    ∧ (adaptiveConnParams st now).keyboardAddress = st.keyboardAddress
    ∧ (adaptiveConnParams st now).isScanning = st.isScanning := by
  unfold adaptiveConnParams
  split
  · split
    · simp
    · split <;> simp
  · simp

/-- startConnectTask touches only workerActive. -/
theorem startConnectTask_frame (st : BleSt) :
    (startConnectTask st).connectToKeyboard = st.connectToKeyboard
    ∧ (startConnectTask st).autoReconnectEnabled = st.autoReconnectEnabled
    ∧ (startConnectTask st).reconnectDelay = st.reconnectDelay
    ∧ (startConnectTask st).lastReconnectAttempt = st.lastReconnectAttempt
    ∧ (startConnectTask st).keyboardAddress = st.keyboardAddress
    ∧ (startConnectTask st).storedAddress = st.storedAddress
    ∧ (startConnectTask st).isScanning = st.isScanning := by
  unfold startConnectTask
  split <;> simp

/-- The auto-reconnect block fires exactly as the source writes it. -/
theorem autoReconnectCheck_fires (st : BleSt) (now : Nat)
    (hdis : st.bleState = BLEState.DISCONNECTED)
    (hauto : st.autoReconnectEnabled = true)
    (hw : st.workerActive = false)
    (hstored : 0 < st.storedAddress.length)
    (hdue : st.reconnectDelay ≤ now - st.lastReconnectAttempt) :
    autoReconnectCheck st now
      = { st with lastReconnectAttempt := now,
                  keyboardAddress := st.storedAddress,
                  keyboardAddressType := st.storedAddrType,
                  connectToKeyboard := true,
                  reconnectDelay := nextReconnectDelay st.reconnectDelay } := by
  unfold autoReconnectCheck
  rw [if_pos ⟨hdis, hauto, hw⟩, if_pos hstored, if_pos hdue]

/-- The auto-reconnect block is inert when auto-reconnect is disabled. -/
theorem autoReconnectCheck_disabled (st : BleSt) (now : Nat)
    (h : st.autoReconnectEnabled = false) :
    autoReconnectCheck st now = st := by
  unfold autoReconnectCheck
  rw [if_neg (by simp [h])]

/-- The auto-reconnect block is inert while the worker is running. -/
theorem autoReconnectCheck_worker (st : BleSt) (now : Nat)
    (h : st.workerActive = true) :
    autoReconnectCheck st now = st := by
  unfold autoReconnectCheck
  rw [if_neg (by simp [h])]

/-- With no pending connect and the firing conditions met, `bleLoop` initiates
an auto-reconnect attempt: pending flag set, attempt time recorded, target set
to the stored device, and delay doubled (capped). -/
theorem bleLoop_fires (st : BleSt) (now : Nat) (ext : Bool)
    (hdis : st.bleState = BLEState.DISCONNECTED)
    (hauto : st.autoReconnectEnabled = true)
    (hw : st.workerActive = false)
    (hpend : st.connectToKeyboard = false)
    (hstored : 0 < st.storedAddress.length)
    (hdue : st.reconnectDelay ≤ now - st.lastReconnectAttempt) :
    (bleLoop st now ext).connectToKeyboard = true
    ∧ (bleLoop st now ext).lastReconnectAttempt = now
    ∧ (bleLoop st now ext).keyboardAddress = st.storedAddress
    ∧ (bleLoop st now ext).reconnectDelay = nextReconnectDelay st.reconnectDelay := by
  obtain ⟨g1, g2, g3, g4, g5, g6, g7, g8, g9, g10, g11, g12⟩ :=
    scanCompleteCheck_frame st ext
  obtain ⟨a1, a2, a3, a4, a5, a6, a7, a8, a9, a10⟩ :=
    adaptiveConnParams_frame (scanCompleteCheck st ext) now
  have hfire := autoReconnectCheck_fires
    (adaptiveConnParams (scanCompleteCheck st ext) now) now
    (by rw [a1, g1, hdis]) (by rw [a4, g4, hauto]) (by rw [a3, g3, hw])
    (by rw [a7, g7]; exact hstored) (by rw [a5, g5, a6, g6]; exact hdue)
  simp only [bleLoop]
  rw [if_neg (by rw [g2, hpend]; simp)]
  rw [hfire]
  simp [a5, g5, a7, g7]

/-- With auto-reconnect disabled, `bleLoop` never initiates a reconnect
attempt: the backoff state and target address are untouched, and the pending
flag can only be consumed, never raised. -/
theorem bleLoop_no_reconnect (st : BleSt) (now : Nat) (ext : Bool)
    (h : st.autoReconnectEnabled = false) :
    (bleLoop st now ext).reconnectDelay = st.reconnectDelay
    ∧ (bleLoop st now ext).lastReconnectAttempt = st.lastReconnectAttempt
    ∧ (bleLoop st now ext).keyboardAddress = st.keyboardAddress
    ∧ ((bleLoop st now ext).connectToKeyboard = true →
        st.connectToKeyboard = true) := by
  obtain ⟨g1, g2, g3, g4, g5, g6, g7, g8, g9, g10, g11, g12⟩ :=
    scanCompleteCheck_frame st ext
  obtain ⟨a1, a2, a3, a4, a5, a6, a7, a8, a9, a10⟩ :=
    adaptiveConnParams_frame (scanCompleteCheck st ext) now
  obtain ⟨s1, s2, s3, s4, s5, s6, s7⟩ :=
    startConnectTask_frame
      { scanCompleteCheck st ext with connectToKeyboard := false }
  simp only [bleLoop]
  split
  · refine ⟨?_, ?_, ?_, ?_⟩
    · rw [s3]; simp [g5]
    · rw [s4]; simp [g6]
    · rw [s5]; simp [g9]
    · rw [s1]; simp
  · rw [autoReconnectCheck_disabled _ _ (by rw [a4, g4, h])]
    refine ⟨by rw [a5, g5], by rw [a6, g6], by rw [a9, g9], ?_⟩
    rw [a2, g2]
    exact fun hx => hx

/-- Closed form of the backoff recurrence: min(floor · 2^k, cap). -/
theorem backoffDelay_eq (k : Nat) :
    backoffDelay k = min (RECONNECT_FLOOR * 2 ^ k) MAX_RECONNECT_DELAY := by
  induction k with
  | zero =>
    simp [backoffDelay, RECONNECT_FLOOR, MAX_RECONNECT_DELAY]
  | succ n ih =>
    have h2 : RECONNECT_FLOOR * 2 ^ (n + 1) = RECONNECT_FLOOR * 2 ^ n * 2 := by
      rw [pow_succ]; ring
    simp only [backoffDelay, nextReconnectDelay, ih, h2]
    unfold MAX_RECONNECT_DELAY RECONNECT_FLOOR
    have hpos : 0 < 10000 * 2 ^ n := by positivity
    split <;> omega

/-- Sample state for witnesses: disconnected, auto-reconnect enabled, stored
device present, backoff at the floor, last attempt at time 0. -/
def reconSt : BleSt := { storedAddress := "aa:bb" }

/-- C4: (i) starting from the reset state, the delay before the k-th
consecutive auto-reconnect attempt is min(10000·2^k, 120000); (ii) when the
backoff timer fires, `bleLoop` initiates the attempt at time `now` and the
next delay is exactly the doubled/capped one; (iii) a worker run that reaches
`CONNECTED` resets the delay to the 10000 ms floor. -/
theorem C4_backoff (k : Nat) (st stW : BleSt) (now tW : Nat) (ext aW : Bool)
    (hdis : st.bleState = BLEState.DISCONNECTED)
    (hauto : st.autoReconnectEnabled = true)
    (hw : st.workerActive = false)
    (hpend : st.connectToKeyboard = false)
    (hstored : 0 < st.storedAddress.length)
    (hdue : st.reconnectDelay ≤ now - st.lastReconnectAttempt) :
    backoffDelay k = min (RECONNECT_FLOOR * 2 ^ k) MAX_RECONNECT_DELAY
    ∧ (bleLoop st now ext).connectToKeyboard = true
    ∧ (bleLoop st now ext).lastReconnectAttempt = now
    ∧ (bleLoop st now ext).reconnectDelay = nextReconnectDelay st.reconnectDelay
    ∧ (bleConnectTask stW true aW true tW).bleState = BLEState.CONNECTED
    ∧ (bleConnectTask stW true aW true tW).reconnectDelay = RECONNECT_FLOOR := by
  obtain ⟨f1, f2, _, f4⟩ := bleLoop_fires st now ext hdis hauto hw hpend hstored hdue
  refine ⟨backoffDelay_eq k, f1, f2, f4, ?_, ?_⟩ <;>
    · unfold bleConnectTask
      simp

/-- C4 (witness): the theorem at k = 4, the sample reconnect state, and
time 20000. -/
theorem C4_backoff_witness :
    backoffDelay 4 = min (RECONNECT_FLOOR * 2 ^ 4) MAX_RECONNECT_DELAY
    ∧ (bleLoop reconSt 20000 false).connectToKeyboard = true
    ∧ (bleLoop reconSt 20000 false).lastReconnectAttempt = 20000
    ∧ (bleLoop reconSt 20000 false).reconnectDelay
        = nextReconnectDelay reconSt.reconnectDelay
    ∧ (bleConnectTask reconSt true true true 7).bleState = BLEState.CONNECTED
    ∧ (bleConnectTask reconSt true true true 7).reconnectDelay = RECONNECT_FLOOR :=
  C4_backoff 4 reconSt reconSt 20000 7 false true
    (by decide) (by decide) (by decide) (by decide) (by decide) (by decide)

/-- cancelPendingConnection clears the pending flag and touches nothing of
the backoff state or target address. -/
theorem cancelPendingConnection_frame (st : BleSt) :
    (cancelPendingConnection st).connectToKeyboard = false
    ∧ (cancelPendingConnection st).autoReconnectEnabled = st.autoReconnectEnabled
    ∧ (cancelPendingConnection st).reconnectDelay = st.reconnectDelay
    ∧ (cancelPendingConnection st).lastReconnectAttempt = st.lastReconnectAttempt
    ∧ (cancelPendingConnection st).keyboardAddress = st.keyboardAddress := by
  simp only [cancelPendingConnection]
  split <;> simp

/-- startDeviceScan leaves the pending flag cleared and the backoff state and
target address untouched. -/
theorem startDeviceScan_frame (st : BleSt) (now : Nat) :
    (startDeviceScan st now).connectToKeyboard = false
    ∧ (startDeviceScan st now).autoReconnectEnabled = st.autoReconnectEnabled
    ∧ (startDeviceScan st now).reconnectDelay = st.reconnectDelay
    ∧ (startDeviceScan st now).lastReconnectAttempt = st.lastReconnectAttempt
    ∧ (startDeviceScan st now).keyboardAddress = st.keyboardAddress := by
  obtain ⟨c1, c2, c3, c4, c5⟩ := cancelPendingConnection_frame st
  unfold startDeviceScan
  exact ⟨c1, c2, c3, c4, c5⟩

theorem uiGate_bt_settings (st : BleSt) (lastUi : UIState) (tGate : Nat) :
    (uiGate st UIState.BLUETOOTH_SETTINGS lastUi tGate).autoReconnectEnabled = false
    ∧ (uiGate st UIState.BLUETOOTH_SETTINGS lastUi tGate).reconnectDelay
        = st.reconnectDelay
    ∧ (uiGate st UIState.BLUETOOTH_SETTINGS lastUi tGate).lastReconnectAttempt
        = st.lastReconnectAttempt
    ∧ (uiGate st UIState.BLUETOOTH_SETTINGS lastUi tGate).keyboardAddress
        = st.keyboardAddress
    ∧ ((uiGate st UIState.BLUETOOTH_SETTINGS lastUi tGate).connectToKeyboard = true →
        st.connectToKeyboard = true) := by
  unfold uiGate
  rw [if_pos rfl]
  split
  · obtain ⟨s1, s2, s3, s4, s5⟩ :=
      startDeviceScan_frame
        (cancelPendingConnection { st with autoReconnectEnabled := false }) tGate
    obtain ⟨c1, c2, c3, c4, c5⟩ :=
      cancelPendingConnection_frame { st with autoReconnectEnabled := false }
    exact ⟨by rw [s2, c2], by rw [s3, c3], by rw [s4, c4], by rw [s5, c5],
           by rw [s1]; simp⟩
  · exact ⟨rfl, rfl, rfl, rfl, fun h => h⟩

/-- C6: while the UI sits in the explicit scanning/pairing context (the
Bluetooth-settings screen, the only place discovery sessions are started and
kept alive), a main-loop iteration — the UI gate from main.cpp followed by
`bleLoop` — never lets the auto-reconnect policy initiate a connect attempt
to the stored device, whatever the backoff timer and stored record hold: the
gate disables `autoReconnectEnabled` before `bleLoop` runs, so the backoff
state and the target address are untouched and no new pending connect is
raised. -/
theorem C6_scan_context_suppressed (st : BleSt) (ui lastUi : UIState)
    (tGate now : Nat) (ext : Bool)
    (hctx : ui = UIState.BLUETOOTH_SETTINGS) :
    (bleLoop (uiGate st ui lastUi tGate) now ext).reconnectDelay
        = st.reconnectDelay
    ∧ (bleLoop (uiGate st ui lastUi tGate) now ext).lastReconnectAttempt
        = st.lastReconnectAttempt
    ∧ (bleLoop (uiGate st ui lastUi tGate) now ext).keyboardAddress
        = st.keyboardAddress
    ∧ ((bleLoop (uiGate st ui lastUi tGate) now ext).connectToKeyboard = true →
        st.connectToKeyboard = true) := by
  subst hctx
  obtain ⟨u1, u2, u3, u4, u5⟩ := uiGate_bt_settings st lastUi tGate
  obtain ⟨b1, b2, b3, b4⟩ :=
    bleLoop_no_reconnect (uiGate st UIState.BLUETOOTH_SETTINGS lastUi tGate)
      now ext u1
  exact ⟨b1.trans u2, b2.trans u3, b3.trans u4, fun h => u5 (b4 h)⟩

/-- C6 (witness): the suppression at a concrete state in which the backoff
timer is overdue and a stored device exists (so without the gate the policy
would fire). -/
theorem C6_scan_context_suppressed_witness :
    (bleLoop (uiGate reconSt UIState.BLUETOOTH_SETTINGS
        UIState.BLUETOOTH_SETTINGS 3) 20000 true).reconnectDelay
        = reconSt.reconnectDelay
    ∧ (bleLoop (uiGate reconSt UIState.BLUETOOTH_SETTINGS
        UIState.BLUETOOTH_SETTINGS 3) 20000 true).lastReconnectAttempt
        = reconSt.lastReconnectAttempt
    ∧ (bleLoop (uiGate reconSt UIState.BLUETOOTH_SETTINGS
        UIState.BLUETOOTH_SETTINGS 3) 20000 true).keyboardAddress
        = reconSt.keyboardAddress
    ∧ ((bleLoop (uiGate reconSt UIState.BLUETOOTH_SETTINGS
        UIState.BLUETOOTH_SETTINGS 3) 20000 true).connectToKeyboard = true →
        reconSt.connectToKeyboard = true) :=
  C6_scan_context_suppressed reconSt UIState.BLUETOOTH_SETTINGS
    UIState.BLUETOOTH_SETTINGS 3 20000 true rfl

/-- Sample state for C7: a connect worker is mid-flight and one device has
been discovered. -/
def busySt : BleSt :=
  { bleState := BLEState.CONNECTING, workerActive := true,
    discoveredDevices :=
      [{ address := "11:22", name := "Kb", rssi := -50, addressType := 1,
         lastSeenMs := 7 }] }

/-- C7 (counterexample): a connect request (`connectToDevice 0`) issued while
the worker is active is NOT a no-op — the pending flag it sets survives the
worker's failure, and the next `bleLoop` tick starts an additional connect
attempt (worker active again); without that request the same tick starts
none. -/
theorem C7_counterexample :
    (bleLoop (bleConnectTask (connectToDevice busySt 0).1 false false false 100)
        200 false).workerActive = true
    ∧ (bleLoop (bleConnectTask busySt false false false 100)
        200 false).workerActive = false := by
  constructor <;> decide

/-- C7 (amended): at most one connect worker runs at a time — while a worker
is active `startConnectTask` is a no-op and `bleLoop` neither launches a
second worker nor touches the pending flag; but a connect request issued
while a worker is active is recorded in the pending flag rather than dropped,
so if the worker ends without reaching `CONNECTED`, the next tick starts an
additional connect attempt. -/
theorem C7_amended (st : BleSt) (now t : Nat) (ext aW : Bool)
    (hw : st.workerActive = true) :
    startConnectTask st = st
    ∧ (bleLoop st now ext).workerActive = true
    ∧ (bleLoop st now ext).connectToKeyboard = st.connectToKeyboard
    ∧ (bleLoop (bleConnectTask { st with connectToKeyboard := true }
          false aW false t) now ext).workerActive = true := by
  obtain ⟨g1, g2, g3, g4, g5, g6, g7, g8, g9, g10, g11, g12⟩ :=
    scanCompleteCheck_frame st ext
  obtain ⟨a1, a2, a3, a4, a5, a6, a7, a8, a9, a10⟩ :=
    adaptiveConnParams_frame (scanCompleteCheck st ext) now
  refine ⟨?_, ?_, ?_, ?_⟩
  · unfold startConnectTask
    rw [if_pos hw]
  · simp only [bleLoop]
    rw [if_neg (by rw [g3, hw]; simp)]
    rw [autoReconnectCheck_worker _ _ (by rw [a3, g3, hw])]
    rw [a3, g3, hw]
  · simp only [bleLoop]
    rw [if_neg (by rw [g3, hw]; simp)]
    rw [autoReconnectCheck_worker _ _ (by rw [a3, g3, hw])]
    rw [a2, g2]
  · have hfail : (bleConnectTask { st with connectToKeyboard := true }
        false aW false t).connectToKeyboard = true := by
      unfold bleConnectTask
      simp
    have hfail2 : (bleConnectTask { st with connectToKeyboard := true }
        false aW false t).bleState = BLEState.DISCONNECTED := by
      unfold bleConnectTask
      simp
    have hfail3 : (bleConnectTask { st with connectToKeyboard := true }
        false aW false t).workerActive = false := by
      unfold bleConnectTask
      simp
    obtain ⟨h1, h2, h3, h4, h5, h6, h7, h8, h9, h10, h11, h12⟩ :=
      scanCompleteCheck_frame
        (bleConnectTask { st with connectToKeyboard := true } false aW false t)
        ext
    simp only [bleLoop]
    rw [if_pos ⟨by rw [h2, hfail], by rw [h1, hfail2]; simp, by rw [h3, hfail3]⟩]
    unfold startConnectTask
    split <;> simp_all

/-- C7 (witness for the amended theorem): the guarantees at the concrete
busy state used by the counterexample. -/
theorem C7_amended_witness :
    startConnectTask busySt = busySt
    ∧ (bleLoop busySt 200 false).workerActive = true
    ∧ (bleLoop busySt 200 false).connectToKeyboard = busySt.connectToKeyboard
    ∧ (bleLoop (bleConnectTask { busySt with connectToKeyboard := true }
          false false false 100) 200 false).workerActive = true :=
  C7_amended busySt 200 100 false false rfl

/-- C10: `connectToDevice` with a negative or out-of-range index changes
nothing at all — the scan is not stopped, no disconnect is issued (the
returned flag is false), the target address/type are unchanged, and no
connect is set pending. -/
theorem C10_invalid_index (st : BleSt) (i : Int)
    (h : i < 0 ∨ i ≥ (st.discoveredDevices.length : Int)) :
    connectToDevice st i = (st, false) := by
  unfold connectToDevice
  rw [if_pos h]

/-- C10 (witness): index 5 with an empty discovered list is rejected with no
state change. -/
theorem C10_invalid_index_witness :
    connectToDevice sampleStAB 5 = (sampleStAB, false) :=
  C10_invalid_index sampleStAB 5 (by decide)

/-! ## Service/characteristic resolver (setupHidConnection) -/

/-- Report characteristic UUID 0x2a4d. -/
def reportUUID : Nat := 0x2a4d

/-- Boot Keyboard Input characteristic UUID 0x2a22. -/
def bootKeyboardInUUID : Nat := 0x2a22

/-- A GATT descriptor as the resolver sees it: whether its UUID is 0x2908
(Report Reference) and its read value. -/
structure ReportRefDesc : Type where
  is2908 : Bool := false
  value : List Nat := []
deriving DecidableEq, Repr

/-- A remote characteristic of the HID service, with the radio-stack
responses the resolver depends on (`subscribeOk` is what `subscribe` would
return). -/
structure RemoteChar : Type where
  uuid : Nat := 0
  canNotify : Bool := false
  descs : List ReportRefDesc := []
  subscribeOk : Bool := true
  handle : Nat := 0
deriving DecidableEq, Repr

/-- The HID remote service: its characteristic list, and the result of
`getCharacteristic(bootKeyboardInUUID)`. -/
structure HidService : Type where
  chars : List RemoteChar := []
  bootKeyboardIn : Option RemoteChar := none
deriving DecidableEq, Repr

/-- Outcome of `setupHidConnection`: its return value, the characteristics
subscribed with `onKeyboardNotify`, and the retained `pInputReportChar`. -/
structure HidSetupResult : Type where
  success : Bool
  subscribed : List RemoteChar
  primary : Option RemoteChar
deriving DecidableEq, Repr

/-- The descriptor scan inside the tier-1 loop: some 0x2908 descriptor has a
value of at least 2 bytes whose type byte (index 1) equals 1 (Input). -/
def charHasInputReportRef (c : RemoteChar) : Bool :=
  c.descs.any fun d => d.is2908 && decide (2 ≤ d.value.length)
    && (d.value.getD 1 0 == 1)

/-- Characteristic resolution of `setupHidConnection` (lines 261-344):
tier 1 picks the first report characteristic whose Report Reference
descriptor declares type Input; failing that, tier 2 subscribes to every
notify-capable report characteristic and keeps the first success as primary;
failing that, tier 3 falls back to the Boot Keyboard Input characteristic.
No primary at all is a fatal resolution error.  The trailing conditional
subscribe mirrors line 332: a primary that is not a notify-capable report
characteristic is subscribed now, fatal on failure. -/
def setupHidConnection (svc : HidService) : HidSetupResult :=
  let tier1 := svc.chars.find? fun c =>
    (c.uuid == reportUUID) && charHasInputReportRef c
  let tier2subs : List RemoteChar :=
    match tier1 with
    | some _ => []
    | none =>
        (svc.chars.filter fun c => (c.uuid == reportUUID) && c.canNotify).filter
          fun c => c.subscribeOk
  let primary : Option RemoteChar :=
    match tier1 with
    | some c => some c
    | none =>
        match tier2subs.head? with
        | some c0 => some c0
        | none => svc.bootKeyboardIn
  match primary with
  | none => { success := false, subscribed := tier2subs, primary := none }
  | some c =>
      if c.uuid ≠ reportUUID ∨ c.canNotify = false then
        if c.subscribeOk then
          { success := true, subscribed := tier2subs ++ [c], primary := some c }
        else
          { success := false, subscribed := tier2subs, primary := some c }
      else
        { success := true, subscribed := tier2subs, primary := some c }

/-- C5: when no characteristic of the HID service carries an Input-typed
Report Reference descriptor but at least one notify-capable report
characteristic exists (and the stack accepts the subscriptions), resolution
subscribes to EVERY notify-capable report characteristic (tier 2) and the
HID setup succeeds instead of failing fatally. -/
theorem C5_tier2_fallback (svc : HidService)
    (hnoref : ∀ c ∈ svc.chars,
      ¬(c.uuid = reportUUID ∧ charHasInputReportRef c = true))
    (hnotify : ∃ c ∈ svc.chars, c.uuid = reportUUID ∧ c.canNotify = true)
    (hsub : ∀ c ∈ svc.chars, c.subscribeOk = true) :
    (setupHidConnection svc).success = true
    ∧ (setupHidConnection svc).subscribed
        = svc.chars.filter fun c => (c.uuid == reportUUID) && c.canNotify := by
  have hfind : (svc.chars.find? fun c =>
      (c.uuid == reportUUID) && charHasInputReportRef c) = none := by
    rw [List.find?_eq_none]
    intro c hc
    simp only [Bool.and_eq_true, beq_iff_eq]
    intro hcontra
    exact hnoref c hc ⟨hcontra.1, hcontra.2⟩
  have hsubeq : ((svc.chars.filter fun c =>
        (c.uuid == reportUUID) && c.canNotify).filter fun c => c.subscribeOk)
      = svc.chars.filter fun c => (c.uuid == reportUUID) && c.canNotify := by
    apply List.filter_eq_self.mpr
    intro c hc
    exact hsub c (List.mem_of_mem_filter hc)
  obtain ⟨c, hc, h1, h2⟩ := hnotify
  have hcmem : c ∈ svc.chars.filter fun c =>
      (c.uuid == reportUUID) && c.canNotify :=
    List.mem_filter.mpr ⟨hc, by simp [h1, h2]⟩
  obtain ⟨c0, tl, hatt⟩ :=
    List.exists_cons_of_ne_nil (List.ne_nil_of_mem hcmem)
  have hc0 : c0 ∈ svc.chars.filter fun c =>
      (c.uuid == reportUUID) && c.canNotify := by
    rw [hatt]
    exact List.mem_cons_self _ _
  have hc0p := (List.mem_filter.mp hc0).2
  simp only [Bool.and_eq_true, beq_iff_eq] at hc0p
  simp only [setupHidConnection]
  rw [hfind]
  simp only []
  rw [hsubeq, hatt]
  simp only [List.head?_cons]
  rw [if_neg (by simp [hc0p.1, hc0p.2])]
  exact ⟨rfl, rfl⟩

/-- Sample notify-capable report characteristic without any Report Reference
descriptor, and the service holding only it. -/
def charNoRef : RemoteChar :=
  { uuid := 0x2a4d, canNotify := true, descs := [], subscribeOk := true,
    handle := 21 }

def svcNoRef : HidService := { chars := [charNoRef], bootKeyboardIn := none }

/-- C5 (witness): the tier-2 fallback at the one-characteristic mock
service. -/
theorem C5_tier2_fallback_witness :
    (setupHidConnection svcNoRef).success = true
    ∧ (setupHidConnection svcNoRef).subscribed
        = svcNoRef.chars.filter fun c => (c.uuid == reportUUID) && c.canNotify :=
  C5_tier2_fallback svcNoRef (by decide) (by decide) (by decide)

/-- C8: for every peripheral-requested interval range and both controller
modes, the accepted minimum is exactly max(requested min, profile floor min),
the accepted maximum is at least both the accepted minimum and the profile
floor max, and the applied latency is the active profile's latency. -/
theorem C8_conn_params_clamped (mode : Bool) (reqMin reqMax : Nat) :
    (onConnParamsUpdateRequest mode reqMin reqMax).1
        = max reqMin (if mode then CONN_INTERVAL_IDLE_MIN
                      else CONN_INTERVAL_ACTIVE_MIN)
    ∧ (onConnParamsUpdateRequest mode reqMin reqMax).1
        ≤ (onConnParamsUpdateRequest mode reqMin reqMax).2.1
    ∧ (if mode then CONN_INTERVAL_IDLE_MAX else CONN_INTERVAL_ACTIVE_MAX)
        ≤ (onConnParamsUpdateRequest mode reqMin reqMax).2.1
    ∧ (onConnParamsUpdateRequest mode reqMin reqMax).2.2
        = (if mode then CONN_SLAVE_LATENCY_IDLE
           else CONN_SLAVE_LATENCY_ACTIVE) := by
  cases mode <;>
    · refine ⟨?_, ?_, ?_, ?_⟩ <;>
        simp only [onConnParamsUpdateRequest, CONN_INTERVAL_IDLE_MIN,
          CONN_INTERVAL_ACTIVE_MIN, CONN_INTERVAL_IDLE_MAX,
          CONN_INTERVAL_ACTIVE_MAX, CONN_SLAVE_LATENCY_IDLE,
          CONN_SLAVE_LATENCY_ACTIVE, Bool.false_eq_true, if_false, if_true,
          Nat.max_def] <;>
        (try split_ifs) <;> omega

/-! ## Discovery list invariants (upsertDevice) -/

/-- Looking up after an upsert: the upserted address now maps to the new
info; every other address is unaffected. -/
theorem find_upsert (l : List BleDeviceInfo) (info : BleDeviceInfo)
    (a : String) :
    findByAddress (upsertDevice l info) a
      = if a = info.address then some info else findByAddress l a := by
  induction l with
  | nil =>
    by_cases h : a = info.address
    · simp [upsertDevice, findByAddress, h]
    · simp [upsertDevice, findByAddress, h, Ne.symm h]
  | cons d rest ih =>
    by_cases hd : d.address = info.address
    · rw [show upsertDevice (d :: rest) info = info :: rest by
        simp [upsertDevice, hd]]
      by_cases h : a = info.address
      · simp [findByAddress, List.find?_cons, h]
      · have h2 : (info.address == a) = false := by
          simp
          exact fun hh => h hh.symm
        have h3 : (d.address == a) = false := by
          rw [hd]
          exact h2
        simp only [findByAddress, List.find?_cons, h2, h3, if_neg h]
    · rw [show upsertDevice (d :: rest) info = d :: upsertDevice rest info by
        simp [upsertDevice, hd]]
      by_cases hda : d.address = a
      · have hne : ¬ a = info.address := by
          intro hh
          exact hd (by rw [hda, hh])
        simp [findByAddress, List.find?_cons, hda, hne]
      · have h3 : (d.address == a) = false := by simp [hda]
        simp only [findByAddress, List.find?_cons, h3]
        exact ih

/-- Membership after an upsert comes from the new info or the old list. -/
theorem mem_upsert {l : List BleDeviceInfo} {info x : BleDeviceInfo}
    (h : x ∈ upsertDevice l info) : x = info ∨ x ∈ l := by
  induction l with
  | nil =>
    simp [upsertDevice] at h
    exact Or.inl h
  | cons d rest ih =>
    by_cases hd : d.address = info.address
    · rw [show upsertDevice (d :: rest) info = info :: rest by
        simp [upsertDevice, hd]] at h
      rcases List.mem_cons.mp h with h1 | h1
      · exact Or.inl h1
      · exact Or.inr (List.mem_cons_of_mem _ h1)
    · rw [show upsertDevice (d :: rest) info = d :: upsertDevice rest info by
        simp [upsertDevice, hd]] at h
      rcases List.mem_cons.mp h with h1 | h1
      · exact Or.inr (h1 ▸ List.mem_cons_self _ _)
      · rcases ih h1 with h2 | h2
        · exact Or.inl h2
        · exact Or.inr (List.mem_cons_of_mem _ h2)

/-- Upserting preserves address-distinctness of the list. -/
theorem upsert_pairwise {l : List BleDeviceInfo} (info : BleDeviceInfo)
    (h : l.Pairwise fun a b => a.address ≠ b.address) :
    (upsertDevice l info).Pairwise fun a b => a.address ≠ b.address := by
  induction l with
  | nil => simp [upsertDevice]
  | cons d rest ih =>
    rw [List.pairwise_cons] at h
    obtain ⟨hd1, hd2⟩ := h
    by_cases hd : d.address = info.address
    · rw [show upsertDevice (d :: rest) info = info :: rest by
        simp [upsertDevice, hd]]
      rw [List.pairwise_cons]
      refine ⟨?_, hd2⟩
      intro b hb
      rw [← hd]
      exact hd1 b hb
    · rw [show upsertDevice (d :: rest) info = d :: upsertDevice rest info by
        simp [upsertDevice, hd]]
      rw [List.pairwise_cons]
      refine ⟨?_, ih hd2⟩
      intro b hb
      rcases mem_upsert hb with h2 | h2
      · rw [h2]
        exact hd
      · exact hd1 b h2

/-- Folding sightings through upsertDevice: the lookup of any address is the
most recent matching sighting, else whatever the initial list held. -/
theorem find_foldl (ss : List BleDeviceInfo) (l : List BleDeviceInfo)
    (a : String) :
    findByAddress (ss.foldl upsertDevice l) a
      = match lastMatch ss a with
        | some d => some d
        | none => findByAddress l a := by
  induction ss generalizing l with
  | nil => simp [lastMatch]
  | cons s tail ih =>
    rw [List.foldl_cons, ih (upsertDevice l s)]
    cases htm : lastMatch tail a with
    | some d => simp [lastMatch, htm]
    | none =>
      simp only [lastMatch, htm]
      rw [find_upsert]
      by_cases h : s.address = a
      · simp [h]
      · have h4 : ¬ a = s.address := fun hh => h hh.symm
        simp [h, h4]

/-- In an address-distinct list, lookup by a member's address returns exactly
that member. -/
theorem find_self {l : List BleDeviceInfo} {d : BleDeviceInfo}
    (hp : l.Pairwise fun a b => a.address ≠ b.address) (hmem : d ∈ l) :
    findByAddress l d.address = some d := by
  induction l with
  | nil => cases hmem
  | cons x rest ih =>
    rw [List.pairwise_cons] at hp
    rcases List.mem_cons.mp hmem with h1 | h1
    · subst h1
      simp [findByAddress, List.find?_cons]
    · have hne : x.address ≠ d.address := hp.1 d h1
      have hb : (x.address == d.address) = false := by simp [hne]
      simp only [findByAddress, List.find?_cons, hb]
      exact ih hp.2 h1

/-- A successful lastMatch returns an entry with the looked-up address. -/
theorem lastMatch_addr {ss : List BleDeviceInfo} {a : String}
    {x : BleDeviceInfo} (h : lastMatch ss a = some x) : x.address = a := by
  induction ss with
  | nil => simp [lastMatch] at h
  | cons s tail ih =>
    cases htm : lastMatch tail a with
    | some d =>
      simp only [lastMatch, htm] at h
      cases h
      exact ih htm
    | none =>
      simp only [lastMatch, htm] at h
      by_cases hs : s.address = a
      · rw [if_pos hs] at h
        cases h
        exact hs
      · rw [if_neg hs] at h
        cases h

/-- Every sighted address has a lastMatch. -/
theorem lastMatch_of_mem {ss : List BleDeviceInfo} {s : BleDeviceInfo}
    (h : s ∈ ss) : ∃ x, lastMatch ss s.address = some x := by
  induction ss with
  | nil => cases h
  | cons t tail ih =>
    rcases List.mem_cons.mp h with h1 | h1
    · subst h1
      cases htm : lastMatch tail s.address with
      | some d => exact ⟨d, by simp [lastMatch, htm]⟩
      | none => exact ⟨s, by simp [lastMatch, htm]⟩
    · obtain ⟨x, hx⟩ := ih h1
      exact ⟨x, by simp [lastMatch, hx]⟩

/-- C9: processing any sequence of advertisement sightings through
`upsertDevice` (starting from the empty discovery list) leaves (i) at most
one entry per address, (ii) every entry equal — all attributes included — to
the most recent sighting of its address, and (iii) an entry for every
sighted address. -/
theorem C9_upsert_invariant (sightings : List BleDeviceInfo) :
    (sightings.foldl upsertDevice []).Pairwise
        (fun a b => a.address ≠ b.address)
    ∧ (∀ d ∈ sightings.foldl upsertDevice [],
        lastMatch sightings d.address = some d)
    ∧ (∀ s ∈ sightings, ∃ d ∈ sightings.foldl upsertDevice [],
        d.address = s.address) := by
  have hgen : ∀ l, l.Pairwise (fun a b => a.address ≠ b.address) →
      (sightings.foldl upsertDevice l).Pairwise
        (fun a b => a.address ≠ b.address) := by
    induction sightings with
    | nil => exact fun l h => h
    | cons s tail ih =>
      intro l h
      rw [List.foldl_cons]
      exact ih _ (upsert_pairwise s h)
  have hpair := hgen [] (by simp)
  refine ⟨hpair, ?_, ?_⟩
  · intro d hd
    have hfind : findByAddress (sightings.foldl upsertDevice []) d.address
        = some d := find_self hpair hd
    rw [find_foldl] at hfind
    cases htm : lastMatch sightings d.address with
    | some x =>
      rw [htm] at hfind
      simp only [] at hfind
      cases hfind
      rfl
    | none =>
      rw [htm] at hfind
      simp [findByAddress] at hfind
  · intro s hs
    obtain ⟨x, hx⟩ := lastMatch_of_mem hs
    have hfind : findByAddress (sightings.foldl upsertDevice []) s.address
        = some x := by
      rw [find_foldl]
      simp [hx]
    have hxmem : x ∈ sightings.foldl upsertDevice [] :=
      List.mem_of_find?_eq_some hfind
    have hxaddr : x.address = s.address := by
      have hps := List.find?_some hfind
      simpa using hps
    exact ⟨x, hxmem, hxaddr⟩

/-- Sample sightings: two addresses, the first one seen twice with fresher
attributes the second time. -/
def sightA1 : BleDeviceInfo :=
  { address := "aa", name := "Kb", rssi := -70, addressType := 0,
    lastSeenMs := 10 }

def sightB1 : BleDeviceInfo :=
  { address := "bb", name := "Other", rssi := -60, addressType := 1,
    lastSeenMs := 20 }

def sightA2 : BleDeviceInfo :=
  { address := "aa", name := "Kb", rssi := -40, addressType := 0,
    lastSeenMs := 30 }

/-- C9 (witness): on the sighting sequence [A1, B1, A2] the entry stored for
the repeated address is the most recent sighting A2. -/
theorem C9_upsert_invariant_witness :
    lastMatch [sightA1, sightB1, sightA2] sightA2.address = some sightA2 :=
  (C9_upsert_invariant [sightA1, sightB1, sightA2]).2.1 sightA2 (by decide)
